import Mathlib

/-!
Verification of the FPL-Predictor core optimization triad against its
natural-language specification.

The development shallowly embeds the three core modules:

* `Optimizer`       — blocks/optimizer.py   (`_validate_pool`, `pick_initial_squad`)
* `XiPicker`        — blocks/xi_picker.py   (`pick_starting_xi`)
* `TransferPlanner` — blocks/transfer_planner.py
                      (`_club_counts`, `_valid_after_transfer`, `_apply_transfer`,
                       `_best_single_transfer_for_gw`, `plan_transfers_greedy`)

Modelling conventions:

* pandas DataFrames become lists of typed row structures; a nullable column
  (pandas `Int64` / possibly-NaN float) becomes an `Option` field; `fillna(0.0)`
  becomes `Option.getD 0`.
* Python floats become `ℚ`; all prices, points and tolerances in the source are
  small decimal literals, so rational arithmetic is exact and faithful.
* The external CBC integer-programming solver (PuLP) is opaque to the source
  code: the source hands it an objective and constraints and reads back a
  status integer and a 0/1 value per decision variable.  We model a solver
  call by an explicit `SolverResult` (status plus assignment) passed as an
  argument; theorems about solved instances take the solver contract — status
  `1` (Optimal) implies the assignment satisfies the constraints the source
  posted — as a hypothesis, mirroring exactly which constraints the source
  builds.
* Python exceptions become `Except String`.
* `pandas.sort_values` is modelled with `List.insertionSort` (a stable sort).
  The frames sorted for captain/vice and bench ordering always have at most 15
  rows; for arrays this small numpy's `quicksort` kind runs its insertion-sort
  leg, which is stable, and pandas' descending sort double-reverses around the
  ascending argsort, so equal keys keep their input order — the stable-sort
  model is exact on every reachable input.
-/

set_option maxRecDepth 4000

namespace FPL

/-! ## Optimizer (blocks/optimizer.py) -/

namespace Optimizer

/-- Dataclass `PositionLimits` from blocks/optimizer.py. -/
structure PositionLimits where
  GKP : Nat := 2
  DEF : Nat := 5
  MID : Nat := 5
  FWD : Nat := 3
  SQUAD : Nat := 15
deriving DecidableEq, Repr

/-- One row of the raw candidate frame handed to `_validate_pool`.  The seven
required columns are typed fields (their presence is the `required` check in
the source; a frame value of this type always passes it).  `player_id` and
`player_key` are nullable pandas `Int64` columns; the numeric columns may hold
unparseable/NaN entries, modelled by `Option`. -/
structure RawRow where
  player_id : Option Int
  player_key : Option Int
  web_name : String
  team_short : String
  team_id : Int
  position : String
  now_cost : Option ℚ
  horizon_xpts : Option ℚ
  mean_reliability : Option ℚ
deriving DecidableEq, Repr

/-- A raw candidate frame: its rows plus whether the optional identifier
columns `player_id` / `player_key` are present at all. -/
structure Frame where
  hasPlayerId : Bool
  hasPlayerKey : Bool
  rows : List RawRow
deriving Repr

/-- One row of the validated pool produced by `_validate_pool`: the cleaned
numeric columns plus the internal `uid` column. -/
structure PRow where
  uid : String
  player_id : Option Int
  player_key : Option Int
  web_name : String
  team_short : String
  team_id : Int
  position : String
  now_cost : ℚ
  horizon_xpts : ℚ
  mean_reliability : ℚ
deriving DecidableEq, Repr

/-- Model of `pool["player_id"].astype("Int64").astype(str)` applied to one
cell: a non-null pandas Int64 prints its integer, a null prints `"<NA>"`. -/
def idToUid : Option Int → String
  | some n => toString n
  | none => "<NA>"

/-- Comparator for the de-duplication sort
`sort_values(["horizon_xpts", "now_cost"], ascending=[False, True])`:
by `horizon_xpts` descending, then `now_cost` ascending. -/
def dedupRel (a b : PRow) : Prop :=
  b.horizon_xpts < a.horizon_xpts ∨
    (a.horizon_xpts = b.horizon_xpts ∧ a.now_cost ≤ b.now_cost)

instance : DecidableRel dedupRel := fun a b => by
  unfold dedupRel
  exact inferInstance

/-- Model of `drop_duplicates(subset=["uid"], keep="first")`: keep the first
occurrence of each `uid`. -/
def dedupByUid (l : List PRow) : List PRow :=
  (l.foldl
    (fun (acc : List PRow × List String) r =>
      if acc.2.contains r.uid then acc else (acc.1 ++ [r], r.uid :: acc.2))
    ([], [])).1

/-- One row after the `uid` build and numeric coercion of `_validate_pool`:
`uid` comes from `player_id` when `useId` holds (the `player_id` column is
present with at least one non-null entry), from `player_key` otherwise;
`to_numeric(...).fillna(0.0)` turns unparseable entries into 0. -/
def toPRow (useId : Bool) (r : RawRow) : PRow :=
  { uid := if useId then idToUid r.player_id else idToUid r.player_key
    player_id := r.player_id
    player_key := r.player_key
    web_name := r.web_name
    team_short := r.team_short
    team_id := r.team_id
    position := r.position
    now_cost := r.now_cost.getD 0
    horizon_xpts := r.horizon_xpts.getD 0
    mean_reliability := r.mean_reliability.getD 0 }

/-- The position restriction `pool["position"].isin(["GKP","DEF","MID","FWD"])`. -/
def posOk (r : PRow) : Bool :=
  ["GKP", "DEF", "MID", "FWD"].contains r.position

/-- The cost guardrail `(now_cost >= 3.5) & (now_cost <= 15.5)`. -/
def costOk (r : PRow) : Bool :=
  decide ((7 : ℚ)/2 ≤ r.now_cost) && decide (r.now_cost ≤ (31 : ℚ)/2)

/-- Condition on which the source builds `uid` from `player_id`:
`"player_id" in pool.columns and pool["player_id"].notna().any()`. -/
def useIdFlag (df : Frame) : Bool :=
  df.hasPlayerId && df.rows.any fun r => r.player_id.isSome

/-- The cleaning pipeline of `_validate_pool`: uid build and coercion, the
position and cost filters, the
`sort_values(["horizon_xpts","now_cost"], ascending=[False,True])` sort and
the `drop_duplicates(subset=["uid"], keep="first")` de-duplication. -/
def cleanPool (df : Frame) : List PRow :=
  dedupByUid
    (List.insertionSort dedupRel
      (((df.rows.map (toPRow (useIdFlag df))).filter posOk).filter costOk))

/-- Embedding of `_validate_pool` (blocks/optimizer.py lines 20–61).  The
seven always-required columns are presence-guaranteed by the `Frame` type;
the identifier-column check and the pipeline follow the source.  When the
`player_id` column exists but is all-null and no `player_key` column exists,
the source's `pool["player_key"]` access raises (KeyError), modelled by the
second error branch. -/
def _validate_pool (df : Frame) : Except String (List PRow) :=
  if ¬ df.hasPlayerId ∧ ¬ df.hasPlayerKey then
    .error "optimizer: need one of player_id or player_key in candidates"
  else if ¬ useIdFlag df ∧ ¬ df.hasPlayerKey then
    .error "KeyError: player_key"
  else
    .ok (cleanPool df)

/-- Status integer and variable assignment read back from one CBC solve, as
PuLP exposes them to `pick_initial_squad` (`prob.status` and `x[uid].value()`;
`assign uid = true` models `x[uid].value() == 1`). -/
structure SolverResult where
  status : Int
  assign : String → Bool

/-- Totals block of the dict returned by `pick_initial_squad`. -/
structure SquadTotals where
  cost : ℚ
  horizon_xpts : ℚ
  score : ℚ
deriving DecidableEq, Repr

/-- The dict returned by `pick_initial_squad`. -/
structure SquadResult where
  status : String
  selected : List PRow
  totals : SquadTotals
deriving DecidableEq, Repr

/-- The reliability-blended score column:
`score = horizon_xpts * ((1 - w) + w * mean_reliability)`. -/
def scoreOf (w : ℚ) (r : PRow) : ℚ :=
  r.horizon_xpts * ((1 - w) + w * r.mean_reliability)

/-- Model of `{1: "Optimal", -1: "Infeasible"}.get(status, str(status))`. -/
def statusName (s : Int) : String :=
  if s = 1 then "Optimal" else if s = -1 then "Infeasible" else toString s

/-- Number of rows of `l` in position `p`. -/
def countPos (l : List PRow) (p : String) : Nat :=
  l.countP fun r => r.position == p

/-- Number of rows of `l` belonging to club `t`. -/
def countTeam (l : List PRow) (t : Int) : Nat :=
  l.countP fun r => r.team_id == t

/-- The constraint set `pick_initial_squad` posts to the solver
(blocks/optimizer.py lines 98–113), read off an assignment: budget on the
selected rows, exact per-position quotas, total squad size, and the club
limit for every club group of the pool.  This is the solver contract for an
assignment CBC reports as feasible/optimal. -/
def lpConstraintsHold (pool : List PRow) (budget : ℚ) (pl : PositionLimits)
    (club_limit : Nat) (assign : String → Bool) : Prop :=
  let sel := pool.filter fun r => assign r.uid
  ((sel.map (fun r => r.now_cost)).sum ≤ budget) ∧
  countPos sel "GKP" = pl.GKP ∧
  countPos sel "DEF" = pl.DEF ∧
  countPos sel "MID" = pl.MID ∧
  countPos sel "FWD" = pl.FWD ∧
  sel.length = pl.SQUAD ∧
  ∀ t ∈ pool.map (fun r => r.team_id), countTeam sel t ≤ club_limit

instance (pool : List PRow) (budget : ℚ) (pl : PositionLimits)
    (club_limit : Nat) (assign : String → Bool) :
    Decidable (lpConstraintsHold pool budget pl club_limit assign) := by
  unfold lpConstraintsHold
  exact inferInstance

/-- Embedding of `pick_initial_squad` (blocks/optimizer.py lines 64–138).
The MILP solve itself is the opaque external CBC call; its outcome is the
`sres` argument.  Everything else — pool validation, the selected rows
(`x[uid].value() == 1`), the status string, and the reported totals — is the
source's own code. -/
def pick_initial_squad (candidates : Frame) (budget : ℚ) (pl : PositionLimits)
    (club_limit : Nat) (reliability_weight : ℚ) (sres : SolverResult) :
    Except String SquadResult :=
  match _validate_pool candidates with
  | .error e => .error e
  | .ok pool =>
    let selected := pool.filter fun r => sres.assign r.uid
    .ok
      { status := statusName sres.status
        selected := selected
        totals :=
          { cost := (selected.map (fun r => r.now_cost)).sum
            horizon_xpts := (selected.map (fun r => r.horizon_xpts)).sum
            score := (selected.map (scoreOf reliability_weight)).sum } }

/-- Elements surviving `dedupByUid` come from the input list. -/
theorem mem_of_mem_dedupByUid {r : PRow} {l : List PRow}
    (h : r ∈ dedupByUid l) : r ∈ l := by
  have key : ∀ (l : List PRow) (acc : List PRow × List String),
      r ∈ (l.foldl
        (fun (acc : List PRow × List String) x =>
          if acc.2.contains x.uid then acc else (acc.1 ++ [x], x.uid :: acc.2))
        acc).1 → r ∈ acc.1 ∨ r ∈ l := by
    intro l
    induction l with
    | nil => intro acc h; exact Or.inl h
    | cons x xs ih =>
      intro acc h
      simp only [List.foldl_cons] at h
      rcases ih _ h with h' | h'
      · by_cases hc : acc.2.contains x.uid
        · simp only [hc, if_pos] at h'
          exact Or.inl h'
        · simp only [hc, if_neg, Bool.false_eq_true, not_false_iff] at h'
          rcases List.mem_append.mp h' with h'' | h''
          · exact Or.inl h''
          · simp only [List.mem_singleton] at h''
            exact Or.inr (h'' ▸ List.mem_cons_self x xs)
      · exact Or.inr (List.mem_cons_of_mem x h')
  rcases key l ([], []) h with h' | h'
  · simp at h'
  · exact h'

/-- Pool rows carry fewer occurrences of any club than the whole pool. -/
theorem countTeam_filter_le (pool : List PRow) (p : PRow → Bool) (t : Int) :
    countTeam (pool.filter p) t ≤ countTeam pool t :=
  List.Sublist.countP_le _ (List.filter_sublist pool)

/-- C1: whenever `pick_initial_squad` returns a result with optimal status, the
selected squad simultaneously satisfies all four structural invariants posted
to the solver: its size equals the configured squad size (default 15), its
per-category counts equal the configured quotas exactly, every club
contributes at most `club_limit` assets, and the total price is at most the
budget.  The hypothesis `horacle` is the CBC solver contract: a solve

reported Optimal satisfies the constraint set the source built
(blocks/optimizer.py lines 91–113). -/
theorem pick_initial_squad_optimal_invariants
    (candidates : Frame) (budget : ℚ) (pl : PositionLimits) (club_limit : Nat)
    (w : ℚ) (sres : SolverResult) (pool : List PRow) (res : SquadResult)
    (hv : _validate_pool candidates = .ok pool)
    (hok : pick_initial_squad candidates budget pl club_limit w sres = .ok res)
    (hstat : sres.status = 1)
    (horacle : sres.status = 1 →
      lpConstraintsHold pool budget pl club_limit sres.assign) :
    res.status = "Optimal" ∧
    res.selected.length = pl.SQUAD ∧
    countPos res.selected "GKP" = pl.GKP ∧
    countPos res.selected "DEF" = pl.DEF ∧
    countPos res.selected "MID" = pl.MID ∧
    countPos res.selected "FWD" = pl.FWD ∧
    (∀ t : Int, countTeam res.selected t ≤ club_limit) ∧
    (res.selected.map (fun r => r.now_cost)).sum ≤ budget := by
  unfold pick_initial_squad at hok
  rw [hv] at hok
  simp only [Except.ok.injEq] at hok
  obtain ⟨hbudget, hgk, hdef, hmid, hfwd, hsize, hclub⟩ := horacle hstat
  subst hok
  refine ⟨by simp [statusName, hstat], hsize, hgk, hdef, hmid, hfwd, ?_, hbudget⟩
  intro t
  by_cases ht : t ∈ pool.map (fun r => r.team_id)
  · exact hclub t ht
  · have hz : countTeam pool t = 0 := by
      refine List.countP_eq_zero.mpr ?_
      intro r hr hbeq
      exact ht (List.mem_map.mpr ⟨r, hr, by simpa using hbeq⟩)
    have hle := countTeam_filter_le pool (fun r => sres.assign r.uid) t
    rw [hz] at hle
    exact le_trans hle (Nat.zero_le club_limit)

/-- C2 (amended): on an infeasible solve `pick_initial_squad` returns normally
— a result whose `status` field is the plain string `"Infeasible"` — rather
than raising an error naming the violated constraint; with the solver leaving
every variable unset (CBC writes no incumbent on infeasible) the selection is
empty and all totals are zero. -/
theorem pick_initial_squad_infeasible_returns_status
    (candidates : Frame) (budget : ℚ) (pl : PositionLimits) (club_limit : Nat)
    (w : ℚ) (sres : SolverResult) (pool : List PRow)
    (hv : _validate_pool candidates = .ok pool)
    (hstat : sres.status = -1)
    (hnone : ∀ u, sres.assign u = false) :
    pick_initial_squad candidates budget pl club_limit w sres =
      .ok { status := "Infeasible", selected := [],
            totals := { cost := 0, horizon_xpts := 0, score := 0 } } := by
  unfold pick_initial_squad
  rw [hv]
  have hfil : pool.filter (fun r => sres.assign r.uid) = [] :=
    List.filter_eq_nil_iff.mpr fun r _ => by simp [hnone r.uid]
  simp [hfil, statusName, hstat]

/-- C7 (amended): the `uid` column is produced from `player_id` — the
season-volatile identifier — whenever the `player_id` column is present with
at least one non-null entry; `player_key` (the immutable code) is only the
fallback. -/
theorem validate_pool_uid_from_player_id
    (df : Frame) (pool : List PRow)
    (hid : df.hasPlayerId = true)
    (hsome : df.rows.any (fun r => r.player_id.isSome) = true)
    (hv : _validate_pool df = .ok pool) :
    ∀ r ∈ pool, r.uid = idToUid r.player_id := by
  have huse : useIdFlag df = true := by simp [useIdFlag, hid, hsome]
  unfold _validate_pool at hv
  rw [if_neg (by simp [hid]), if_neg (by simp [huse])] at hv
  have hv' : cleanPool df = pool := by
    simpa using hv
  intro r hr
  rw [← hv'] at hr
  have hr1 := mem_of_mem_dedupByUid hr
  rw [List.mem_insertionSort] at hr1
  have hr2 := List.mem_of_mem_filter hr1
  have hr3 := List.mem_of_mem_filter hr2
  obtain ⟨raw, _, hraw⟩ := List.mem_map.mp hr3
  rw [← hraw]
  simp [toPRow, huse]

/-- Concrete raw row used by the example frames. -/
def mkRaw (pid team : Int) (pos : String) (cost hx : ℚ) : RawRow :=
  { player_id := some pid, player_key := some (pid + 1000),
    web_name := toString pid, team_short := "T", team_id := team,
    position := pos, now_cost := some cost, horizon_xpts := some hx,
    mean_reliability := some 1 }

/-- A 15-row candidate frame matching the default quotas exactly:
2 GKP, 5 DEF, 5 MID, 3 FWD, all on different clubs, 6.0 each. -/
def exDf1 : Frame :=
  { hasPlayerId := true, hasPlayerKey := true
    rows :=
      [mkRaw 1 1 "GKP" 6 30, mkRaw 2 2 "GKP" 6 29,
       mkRaw 3 3 "DEF" 6 28, mkRaw 4 4 "DEF" 6 27, mkRaw 5 5 "DEF" 6 26,
       mkRaw 6 6 "DEF" 6 25, mkRaw 7 7 "DEF" 6 24,
       mkRaw 8 8 "MID" 6 23, mkRaw 9 9 "MID" 6 22, mkRaw 10 10 "MID" 6 21,
       mkRaw 11 11 "MID" 6 20, mkRaw 12 12 "MID" 6 19,
       mkRaw 13 13 "FWD" 6 18, mkRaw 14 14 "FWD" 6 17, mkRaw 15 15 "FWD" 6 16] }

/-- A solver outcome: CBC reported Optimal and set every variable to 1. -/
def exSres1 : SolverResult := { status := 1, assign := fun _ => true }

/-- A solver outcome: CBC reported Infeasible and left every variable unset
(`value() == 1` false for all). -/
def exSres2 : SolverResult := { status := -1, assign := fun _ => false }

/-- The squad-selection result on `exDf1` with the all-chosen optimal solve. -/
def exRes1 : SquadResult :=
  match pick_initial_squad exDf1 100 {} 3 (3/10) exSres1 with
  | .ok r => r
  | .error _ => { status := "", selected := [], totals := ⟨0, 0, 0⟩ }

/-- Witness for C1: on the concrete 15-asset pool `exDf1` with an optimal
all-selected solve, every structural invariant holds. -/
theorem pick_initial_squad_optimal_invariants_witness :
    exRes1.status = "Optimal" ∧
    exRes1.selected.length = 15 ∧
    countPos exRes1.selected "GKP" = 2 ∧
    countPos exRes1.selected "DEF" = 5 ∧
    countPos exRes1.selected "MID" = 5 ∧
    countPos exRes1.selected "FWD" = 3 ∧
    countTeam exRes1.selected 7 ≤ 3 ∧
    (exRes1.selected.map (fun r => r.now_cost)).sum ≤ 100 := by
  obtain ⟨h1, h2, h3, h4, h5, h6, h7, h8⟩ :=
    pick_initial_squad_optimal_invariants exDf1 100 {} 3 (3/10) exSres1
      (cleanPool exDf1) exRes1 (by with_unfolding_all rfl) (by with_unfolding_all rfl) rfl
      (fun _ => by with_unfolding_all decide)
  exact ⟨h1, h2, h3, h4, h5, h6, h7 7, h8⟩

/-- A single-row candidate frame: the quotas are unsatisfiable, so a real CBC
run reports Infeasible. -/
def exDf2 : Frame :=
  { hasPlayerId := true, hasPlayerKey := true, rows := [mkRaw 1 1 "MID" 6 10] }

/-- Counterexample for C2 as stated: on an infeasible instance the function
does not surface a descriptive error naming the violated constraint — it
returns normally, with the bare status string `"Infeasible"` and an empty
selection. -/
theorem pick_initial_squad_infeasible_counterexample :
    pick_initial_squad exDf2 100 {} 3 (3/10) exSres2 =
      .ok { status := "Infeasible", selected := [],
            totals := { cost := 0, horizon_xpts := 0, score := 0 } } := by
  with_unfolding_all rfl

/-- Witness for the amended C2 on the 15-row frame `exDf1` with an
infeasible solve. -/
theorem pick_initial_squad_infeasible_returns_status_witness :
    pick_initial_squad exDf1 100 {} 3 (3/10) exSres2 =
      .ok { status := "Infeasible", selected := [],
            totals := { cost := 0, horizon_xpts := 0, score := 0 } } :=
  pick_initial_squad_infeasible_returns_status exDf1 100 {} 3 (3/10) exSres2
    (cleanPool exDf1) (by with_unfolding_all rfl) rfl (fun _ => rfl)

/-- A frame in which both identifier columns are present and non-null for the
single row: `player_id = 10` (season-volatile), `player_key = 999`
(immutable). -/
def exDf7 : Frame :=
  { hasPlayerId := true, hasPlayerKey := true
    rows := [{ player_id := some 10, player_key := some 999, web_name := "A",
               team_short := "T", team_id := 1, position := "MID",
               now_cost := some 6, horizon_xpts := some 5,
               mean_reliability := some 1 }] }

/-- The validated row for `exDf7`. -/
def exPRow7 : PRow :=
  { uid := "10", player_id := some 10, player_key := some 999, web_name := "A",
    team_short := "T", team_id := 1, position := "MID", now_cost := 6,
    horizon_xpts := 5, mean_reliability := 1 }

/-- Counterexample for C7 as stated: with both identifiers present, the `uid`
is `"10"` — built from the season-volatile `player_id` — and differs from the
string the immutable `player_key` would give. -/
theorem validate_pool_uid_counterexample :
    _validate_pool exDf7 = .ok [exPRow7] ∧
    exPRow7.uid = "10" ∧
    idToUid exPRow7.player_key = "999" ∧
    exPRow7.uid ≠ idToUid exPRow7.player_key :=
  ⟨by with_unfolding_all rfl, rfl, rfl, by decide⟩

/-- Witness for the amended C7 on `exDf7`: the surviving row's `uid` equals
the string of its `player_id`. -/
theorem validate_pool_uid_from_player_id_witness :
    exPRow7.uid = idToUid exPRow7.player_id :=
  validate_pool_uid_from_player_id exDf7 (cleanPool exDf7) rfl rfl
    (by with_unfolding_all rfl) exPRow7 (by with_unfolding_all decide)

end Optimizer

/-! ## Lineup selector (blocks/xi_picker.py) -/

namespace XiPicker

/-- One row of the 15-asset squad frame handed to `pick_starting_xi`
(`player_id, web_name, team_short, position, now_cost`); `player_id` is a
nullable pandas Int64 after the coercion at the top of the function. -/
structure SRow where
  player_id : Option Int
  web_name : String
  team_short : String
  position : String
  now_cost : ℚ
deriving DecidableEq, Repr

/-- One row of the per-GW prediction frame
(`player_id, gw, exp_points_scaled`); the value may be NaN. -/
structure PredRow where
  player_id : Option Int
  gw : Int
  exp_points_scaled : Option ℚ
deriving DecidableEq, Repr

/-- A squad row after the merge with the target-GW predictions: the squad
columns plus the joined `xpts_gw` column (0 after `fillna` when no prediction
matched). -/
structure XRow where
  player_id : Option Int
  web_name : String
  team_short : String
  position : String
  now_cost : ℚ
  xpts_gw : ℚ
deriving DecidableEq, Repr

/-- Pandas merge keys match only when both are non-null and equal (NaN keys
never join). -/
def pidMatches : Option Int → Option Int → Bool
  | some a, some b => a == b
  | _, _ => false

/-- Attach a joined `xpts_gw` value to a squad row. -/
def withXpts (r : SRow) (x : ℚ) : XRow :=
  { player_id := r.player_id, web_name := r.web_name,
    team_short := r.team_short, position := r.position,
    now_cost := r.now_cost, xpts_gw := x }

/-- The merge `squad.merge(p, on="player_id", how="left")` with
`p = gw_preds[gw_preds.gw == target_gw]` followed by
`fillna(0.0)` on `xpts_gw` (xi_picker.py lines 37–41): every squad row is
kept, paired with each matching prediction row (0 when none matches or the
matched value is NaN). -/
def joinPreds (squad : List SRow) (gw_preds : List PredRow) (target_gw : Int) :
    List XRow :=
  let p := gw_preds.filter fun m => m.gw == target_gw
  squad.flatMap fun r =>
    match p.filter (fun m => pidMatches m.player_id r.player_id) with
    | [] => [withXpts r 0]
    | ms => ms.map fun m => withXpts r (m.exp_points_scaled.getD 0)

/-- Position-validity of a merged squad row (the
`set(pool["position"]).issubset({"GKP","DEF","MID","FWD"})` sanity check). -/
def posOkX (r : XRow) : Bool :=
  ["GKP", "DEF", "MID", "FWD"].contains r.position

/-- Status integer and variable assignment read back from one CBC solve of
the XI selection MILP (`model.status` and `y[i].value()`; `assign i = true`
models `y[i].value() == 1` for pool row index `i`). -/
structure XiSolver where
  status : Int
  assign : Nat → Bool

/-- PuLP's `LpStatus` mapping from status integers to strings. -/
def lpStatusStr (s : Int) : String :=
  if s = 1 then "Optimal"
  else if s = 0 then "Not Solved"
  else if s = -1 then "Infeasible"
  else if s = -2 then "Unbounded"
  else if s = -3 then "Undefined"
  else toString s

/-- The starters: pool rows whose decision variable is 1, in pool order
(`pool.loc[chosen_idx]`). -/
def chosenRows (pool : List XRow) (assign : Nat → Bool) : List XRow :=
  (pool.enum.filter fun p => assign p.1).map Prod.snd

/-- The bench: pool rows whose decision variable is not 1, in pool order. -/
def benchRows (pool : List XRow) (assign : Nat → Bool) : List XRow :=
  (pool.enum.filter fun p => ! assign p.1).map Prod.snd

/-- Descending-by-`xpts_gw` order used for
`sort_values("xpts_gw", ascending=False)`. -/
def xptsGe (a b : XRow) : Prop := b.xpts_gw ≤ a.xpts_gw

instance : DecidableRel xptsGe := fun a b =>
  inferInstanceAs (Decidable (b.xpts_gw ≤ a.xpts_gw))

instance : IsTotal XRow xptsGe := ⟨fun a b => le_total b.xpts_gw a.xpts_gw⟩

instance : IsTrans XRow xptsGe := ⟨fun _ _ _ h1 h2 => le_trans h2 h1⟩

/-- Ascending-by-`xpts_gw` order used for the bench-GK fallback
`sort_values("xpts_gw")`. -/
def xptsLe (a b : XRow) : Prop := a.xpts_gw ≤ b.xpts_gw

instance : DecidableRel xptsLe := fun a b =>
  inferInstanceAs (Decidable (a.xpts_gw ≤ b.xpts_gw))

instance : IsTotal XRow xptsLe := ⟨fun a b => le_total a.xpts_gw b.xpts_gw⟩

instance : IsTrans XRow xptsLe := ⟨fun _ _ _ h1 h2 => le_trans h1 h2⟩

/-- Lexicographic order for the pretty XI ordering
`sort_values(["position", "xpts_gw"], ascending=[True, False])`. -/
def prettyRel (a b : XRow) : Prop :=
  a.position < b.position ∨ (a.position = b.position ∧ b.xpts_gw ≤ a.xpts_gw)

instance : DecidableRel prettyRel := fun a b =>
  inferInstanceAs
    (Decidable (a.position < b.position ∨
      (a.position = b.position ∧ b.xpts_gw ≤ a.xpts_gw)))

/-- The dict returned by `pick_starting_xi`. -/
structure XiResult where
  status : String
  xi : List XRow
  bench_gk : List XRow
  bench_outfield : List XRow
  captain : XRow
  vice : XRow
  target_gw : Int
  objective : ℚ
deriving DecidableEq, Repr

/-- Embedding of `pick_starting_xi` (blocks/xi_picker.py lines 11–106).  The
MILP solve is the opaque CBC call, its outcome the `sol` argument; the
size-15 and position sanity checks, the captain/vice selection (top two of
the starters sorted by `xpts_gw` descending — `iloc[0]`/`iloc[1]` raise when
there are fewer than two starters, modelled by the final error branch), the
bench-GK rule with its lowest-xPts fallback, the bench-outfield ordering and
the reported objective are the source's own code. -/
def pick_starting_xi (squad : List SRow) (gw_preds : List PredRow)
    (target_gw : Int) (min_def min_mid min_fwd : Nat) (sol : XiSolver) :
    Except String XiResult :=
  let pool := joinPreds squad gw_preds target_gw
  if pool.length ≠ 15 then
    .error "Expected squad of 15"
  else if ¬ (pool.all posOkX) then
    .error "Unknown positions present in squad."
  else
    let chosen := chosenRows pool sol.assign
    let bench := benchRows pool sol.assign
    match List.insertionSort xptsGe chosen with
    | c :: v :: _ =>
      let bench_gk0 := bench.filter fun r => r.position == "GKP"
      let bench_gk :=
        if bench_gk0.length ≠ 1 then
          (List.insertionSort xptsLe
            (pool.filter fun r => r.position == "GKP")).take 1
        else bench_gk0
      let xi := List.insertionSort prettyRel chosen
      .ok { status := lpStatusStr sol.status
            xi := xi
            bench_gk := bench_gk
            bench_outfield :=
              List.insertionSort xptsGe (bench.filter fun r => r.position != "GKP")
            captain := c
            vice := v
            target_gw := target_gw
            objective := (xi.map fun r => r.xpts_gw).sum }
    | _ => .error "IndexError: fewer than two starters to pick captain and vice"

/-- Number of merged-squad rows in position `p`. -/
def countPosX (l : List XRow) (p : String) : Nat :=
  l.countP fun r => r.position == p

/-- The constraint set `pick_starting_xi` posts to the solver
(blocks/xi_picker.py lines 58–71), read off an assignment: exactly 11
starters, exactly one goalkeeper-category starter, and at least the
configured minimum defenders/midfielders/forwards.  This is the solver
contract for an assignment CBC reports as optimal. -/
def xiConstraintsHold (pool : List XRow) (min_def min_mid min_fwd : Nat)
    (assign : Nat → Bool) : Prop :=
  (chosenRows pool assign).length = 11 ∧
  countPosX (chosenRows pool assign) "GKP" = 1 ∧
  min_def ≤ countPosX (chosenRows pool assign) "DEF" ∧
  min_mid ≤ countPosX (chosenRows pool assign) "MID" ∧
  min_fwd ≤ countPosX (chosenRows pool assign) "FWD"

instance (pool : List XRow) (min_def min_mid min_fwd : Nat)
    (assign : Nat → Bool) :
    Decidable (xiConstraintsHold pool min_def min_mid min_fwd assign) := by
  unfold xiConstraintsHold
  exact inferInstance

/-- A permutation preserves per-position counts. -/
theorem countPosX_eq_of_perm {l1 l2 : List XRow} (h : l1.Perm l2) (p : String) :
    countPosX l1 p = countPosX l2 p :=
  h.countP_eq _

/-- Shape of every successful `pick_starting_xi` result: the descending sort
of the starters begins with the captain and the vice, and the `xi` and
`bench_gk` fields are exactly what the source computes. -/
theorem pick_starting_xi_ok_shape
    (squad : List SRow) (gw_preds : List PredRow) (target_gw : Int)
    (min_def min_mid min_fwd : Nat) (sol : XiSolver) (res : XiResult)
    (hok : pick_starting_xi squad gw_preds target_gw min_def min_mid min_fwd sol
      = .ok res) :
    ∃ rest,
      List.insertionSort xptsGe
          (chosenRows (joinPreds squad gw_preds target_gw) sol.assign)
        = res.captain :: res.vice :: rest ∧
      res.status = lpStatusStr sol.status ∧
      res.xi = List.insertionSort prettyRel
        (chosenRows (joinPreds squad gw_preds target_gw) sol.assign) ∧
      res.bench_gk =
        (if ((benchRows (joinPreds squad gw_preds target_gw) sol.assign).filter
              fun r => r.position == "GKP").length ≠ 1 then
          (List.insertionSort xptsLe
            ((joinPreds squad gw_preds target_gw).filter
              fun r => r.position == "GKP")).take 1
        else
          (benchRows (joinPreds squad gw_preds target_gw) sol.assign).filter
            fun r => r.position == "GKP") := by
  unfold pick_starting_xi at hok
  simp only [] at hok
  split at hok
  · exact absurd hok (by simp)
  split at hok
  · exact absurd hok (by simp)
  split at hok
  case _ c v rest heq =>
    rw [Except.ok.injEq] at hok
    subst hok
    exact ⟨rest, heq, rfl, rfl, rfl⟩
  case _ =>
    exact absurd hok (by simp)

/-- C5: every lineup returned by `pick_starting_xi` from a solve with optimal
status has exactly 11 starters, exactly one goalkeeper-category starter, and
at least the configured minimum defender/midfielder/forward counts.  The
hypothesis `horacle` is the CBC solver contract for the constraint set the
source posts (xi_picker.py lines 58–71). -/
theorem pick_starting_xi_optimal_invariants
    (squad : List SRow) (gw_preds : List PredRow) (target_gw : Int)
    (min_def min_mid min_fwd : Nat) (sol : XiSolver) (res : XiResult)
    (hok : pick_starting_xi squad gw_preds target_gw min_def min_mid min_fwd sol
      = .ok res)
    (hstat : sol.status = 1)
    (horacle : sol.status = 1 →
      xiConstraintsHold (joinPreds squad gw_preds target_gw)
        min_def min_mid min_fwd sol.assign) :
    res.status = "Optimal" ∧
    res.xi.length = 11 ∧
    countPosX res.xi "GKP" = 1 ∧
    min_def ≤ countPosX res.xi "DEF" ∧
    min_mid ≤ countPosX res.xi "MID" ∧
    min_fwd ≤ countPosX res.xi "FWD" := by
  obtain ⟨rest, hsort, hstatus, hxi, hbgk⟩ :=
    pick_starting_xi_ok_shape squad gw_preds target_gw min_def min_mid min_fwd
      sol res hok
  obtain ⟨hlen, hgk, hdef, hmid, hfwd⟩ := horacle hstat
  have hperm := List.perm_insertionSort prettyRel
    (chosenRows (joinPreds squad gw_preds target_gw) sol.assign)
  refine ⟨?_, ?_, ?_, ?_, ?_, ?_⟩
  · rw [hstatus, hstat]
    rfl
  · rw [hxi, hperm.length_eq, hlen]
  · rw [hxi, countPosX_eq_of_perm hperm, hgk]
  · rw [hxi, countPosX_eq_of_perm hperm]
    exact hdef
  · rw [hxi, countPosX_eq_of_perm hperm]
    exact hmid
  · rw [hxi, countPosX_eq_of_perm hperm]
    exact hfwd

/-- C6: in every lineup returned by `pick_starting_xi` from an optimal solve,
the captain and the vice head the stable descending sort of the starters by
target-period value — so the captain's value is at least the vice's, the
vice's is at least every remaining starter's, captain and vice are starters,
and equal-valued starters keep their input order (the stability conjunct:
any correctly-ordered pair of starters, ties included, survives as a
sublist of the sorted list). -/
theorem pick_starting_xi_captain_vice
    (squad : List SRow) (gw_preds : List PredRow) (target_gw : Int)
    (min_def min_mid min_fwd : Nat) (sol : XiSolver) (res : XiResult)
    (hok : pick_starting_xi squad gw_preds target_gw min_def min_mid min_fwd sol
      = .ok res)
    (hstat : sol.status = 1)
    (horacle : sol.status = 1 →
      xiConstraintsHold (joinPreds squad gw_preds target_gw)
        min_def min_mid min_fwd sol.assign) :
    ∃ rest,
      List.insertionSort xptsGe
          (chosenRows (joinPreds squad gw_preds target_gw) sol.assign)
        = res.captain :: res.vice :: rest ∧
      (res.captain :: res.vice :: rest).Perm
        (chosenRows (joinPreds squad gw_preds target_gw) sol.assign) ∧
      res.vice.xpts_gw ≤ res.captain.xpts_gw ∧
      (∀ r ∈ rest, r.xpts_gw ≤ res.vice.xpts_gw) ∧
      (∀ r ∈ chosenRows (joinPreds squad gw_preds target_gw) sol.assign,
        r.xpts_gw ≤ res.captain.xpts_gw) ∧
      (∀ a b : XRow, xptsGe a b →
        List.Sublist [a, b]
          (chosenRows (joinPreds squad gw_preds target_gw) sol.assign) →
        List.Sublist [a, b] (res.captain :: res.vice :: rest)) := by
  obtain ⟨rest, hsort, hstatus, hxi, hbgk⟩ :=
    pick_starting_xi_ok_shape squad gw_preds target_gw min_def min_mid min_fwd
      sol res hok
  have hsorted := List.sorted_insertionSort xptsGe
    (chosenRows (joinPreds squad gw_preds target_gw) sol.assign)
  rw [hsort] at hsorted
  have hperm := List.perm_insertionSort xptsGe
    (chosenRows (joinPreds squad gw_preds target_gw) sol.assign)
  rw [hsort] at hperm
  obtain ⟨hc, hsorted'⟩ := List.pairwise_cons.mp hsorted
  obtain ⟨hv, _⟩ := List.pairwise_cons.mp hsorted'
  refine ⟨rest, hsort, hperm, hc _ (List.mem_cons_self _ _), ?_, ?_, ?_⟩
  · intro r hr
    exact hv r hr
  · intro r hr
    have hr' : r ∈ res.captain :: res.vice :: rest := hperm.mem_iff.mpr hr
    rcases List.mem_cons.mp hr' with h | h
    · rw [h]
    · exact hc r h
  · intro a b hab hsub
    have := List.pair_sublist_insertionSort hab hsub
    rwa [hsort] at this

/-- C9 (amended): whenever `pick_starting_xi` returns at all (the unconditional
`iloc[0]`/`iloc[1]` captain indexing needs at least two starters), the bench
does not hold exactly one goalkeeper, and the squad holds at least one
goalkeeper, the returned `bench_gk` is the single goalkeeper of the whole
squad with the lowest target-period value. -/
theorem pick_starting_xi_bench_gk_lowest
    (squad : List SRow) (gw_preds : List PredRow) (target_gw : Int)
    (min_def min_mid min_fwd : Nat) (sol : XiSolver) (res : XiResult)
    (hok : pick_starting_xi squad gw_preds target_gw min_def min_mid min_fwd sol
      = .ok res)
    (hne : ((benchRows (joinPreds squad gw_preds target_gw) sol.assign).filter
      fun r => r.position == "GKP").length ≠ 1)
    (hex : ((joinPreds squad gw_preds target_gw).filter
      fun r => r.position == "GKP") ≠ []) :
    ∃ g, res.bench_gk = [g] ∧ g.position = "GKP" ∧
      g ∈ joinPreds squad gw_preds target_gw ∧
      ∀ q ∈ joinPreds squad gw_preds target_gw, q.position = "GKP" →
        g.xpts_gw ≤ q.xpts_gw := by
  obtain ⟨rest, hsort, hstatus, hxi, hbgk⟩ :=
    pick_starting_xi_ok_shape squad gw_preds target_gw min_def min_mid min_fwd
      sol res hok
  rw [if_pos hne] at hbgk
  set gks := (joinPreds squad gw_preds target_gw).filter
    (fun r => r.position == "GKP") with hgks
  have hlen : (List.insertionSort xptsLe gks).length = gks.length :=
    List.length_insertionSort xptsLe gks
  have hsorted := List.sorted_insertionSort xptsLe gks
  obtain ⟨g, t, hgt⟩ : ∃ g t, List.insertionSort xptsLe gks = g :: t := by
    cases hs : List.insertionSort xptsLe gks with
    | nil =>
      rw [hs] at hlen
      exact absurd (List.length_eq_zero.mp hlen.symm) hex
    | cons g t => exact ⟨g, t, rfl⟩
  rw [hgt] at hbgk
  rw [hgt] at hsorted
  have hg_mem : g ∈ gks := by
    have : g ∈ List.insertionSort xptsLe gks := by
      rw [hgt]
      exact List.mem_cons_self _ _
    exact (List.mem_insertionSort xptsLe).mp this
  refine ⟨g, by simpa using hbgk, ?_, List.mem_of_mem_filter hg_mem, ?_⟩
  · have := List.of_mem_filter hg_mem
    simpa using this
  · intro q hq hqpos
    have hq_gks : q ∈ gks := List.mem_filter.mpr ⟨hq, by simp [hqpos]⟩
    have hq_sorted : q ∈ g :: t := by
      rw [← hgt]
      exact (List.mem_insertionSort xptsLe).mpr hq_gks
    rcases List.mem_cons.mp hq_sorted with h | h
    · rw [h]
    · exact List.rel_of_sorted_cons hsorted q h

/-- Concrete squad row used by the example lineups. -/
def mkS (pid : Int) (pos : String) : SRow :=
  { player_id := some pid, web_name := toString pid, team_short := "T",
    position := pos, now_cost := 5 }

/-- A legal 15-asset squad: 2 GKP, 5 DEF, 5 MID, 3 FWD. -/
def exSquad5 : List SRow :=
  [mkS 1 "GKP", mkS 2 "GKP",
   mkS 3 "DEF", mkS 4 "DEF", mkS 5 "DEF", mkS 6 "DEF", mkS 7 "DEF",
   mkS 8 "MID", mkS 9 "MID", mkS 10 "MID", mkS 11 "MID", mkS 12 "MID",
   mkS 13 "FWD", mkS 14 "FWD", mkS 15 "FWD"]

/-- Gameweek-1 predictions: player `p` is worth `16 - p` points. -/
def exPreds5 : List PredRow :=
  [⟨some 1, 1, some 15⟩, ⟨some 2, 1, some 14⟩, ⟨some 3, 1, some 13⟩,
   ⟨some 4, 1, some 12⟩, ⟨some 5, 1, some 11⟩, ⟨some 6, 1, some 10⟩,
   ⟨some 7, 1, some 9⟩, ⟨some 8, 1, some 8⟩, ⟨some 9, 1, some 7⟩,
   ⟨some 10, 1, some 6⟩, ⟨some 11, 1, some 5⟩, ⟨some 12, 1, some 4⟩,
   ⟨some 13, 1, some 3⟩, ⟨some 14, 1, some 2⟩, ⟨some 15, 1, some 1⟩]

/-- An optimal solve choosing 1 GKP, 4 DEF, 4 MID, 2 FWD (11 starters). -/
def exSol5 : XiSolver :=
  { status := 1
    assign := fun i => [0, 2, 3, 4, 5, 7, 8, 9, 10, 12, 13].contains i }

/-- Placeholder row for the unreachable error arm of the example results. -/
def dummyXRow : XRow := withXpts (mkS 0 "GKP") 0

/-- The lineup-selection result on `exSquad5` with the optimal solve. -/
def exXiRes5 : XiResult :=
  match pick_starting_xi exSquad5 exPreds5 1 3 2 1 exSol5 with
  | .ok r => r
  | .error _ =>
    { status := "", xi := [], bench_gk := [], bench_outfield := [],
      captain := dummyXRow, vice := dummyXRow, target_gw := 0, objective := 0 }

/-- Witness for C5 on the concrete squad `exSquad5`. -/
theorem pick_starting_xi_optimal_invariants_witness :
    exXiRes5.status = "Optimal" ∧
    exXiRes5.xi.length = 11 ∧
    countPosX exXiRes5.xi "GKP" = 1 ∧
    3 ≤ countPosX exXiRes5.xi "DEF" ∧
    2 ≤ countPosX exXiRes5.xi "MID" ∧
    1 ≤ countPosX exXiRes5.xi "FWD" :=
  pick_starting_xi_optimal_invariants exSquad5 exPreds5 1 3 2 1 exSol5 exXiRes5
    (by with_unfolding_all rfl) rfl (fun _ => by with_unfolding_all decide)

/-- Witness for C6 on the concrete squad `exSquad5`: the captain outranks the
vice and is one of the starters. -/
theorem pick_starting_xi_captain_vice_witness :
    exXiRes5.vice.xpts_gw ≤ exXiRes5.captain.xpts_gw ∧
    exXiRes5.captain ∈ chosenRows (joinPreds exSquad5 exPreds5 1) exSol5.assign := by
  obtain ⟨rest, hsort, hperm, hcv, hrest, hall, hstable⟩ :=
    pick_starting_xi_captain_vice exSquad5 exPreds5 1 3 2 1 exSol5 exXiRes5
      (by with_unfolding_all rfl) rfl (fun _ => by with_unfolding_all decide)
  exact ⟨hcv, hperm.subset (List.mem_cons_self _ _)⟩

/-- A quota-violating squad holding three goalkeepers. -/
def exSquad9 : List SRow :=
  [mkS 1 "GKP", mkS 2 "GKP", mkS 3 "GKP",
   mkS 4 "DEF", mkS 5 "DEF", mkS 6 "DEF", mkS 7 "DEF",
   mkS 8 "MID", mkS 9 "MID", mkS 10 "MID", mkS 11 "MID", mkS 12 "MID",
   mkS 13 "FWD", mkS 14 "FWD", mkS 15 "FWD"]

/-- A solve on `exSquad9` choosing 1 GKP, 4 DEF, 4 MID, 2 FWD — leaving two
goalkeepers on the bench. -/
def exSol9 : XiSolver :=
  { status := 1
    assign := fun i => [0, 3, 4, 5, 6, 7, 8, 9, 10, 12, 13].contains i }

/-- The lineup-selection result on the three-goalkeeper squad `exSquad9`. -/
def exXiRes9 : XiResult :=
  match pick_starting_xi exSquad9 exPreds5 1 3 2 1 exSol9 with
  | .ok r => r
  | .error _ =>
    { status := "", xi := [], bench_gk := [], bench_outfield := [],
      captain := dummyXRow, vice := dummyXRow, target_gw := 0, objective := 0 }

/-- Witness for the amended C9 on `exSquad9`: two goalkeepers sit on the
bench, yet `bench_gk` still holds exactly one goalkeeper row. -/
theorem pick_starting_xi_bench_gk_lowest_witness :
    exXiRes9.bench_gk.length = 1 ∧ countPosX exXiRes9.bench_gk "GKP" = 1 := by
  obtain ⟨g, hbg, hpos, hmem, hmin⟩ :=
    pick_starting_xi_bench_gk_lowest exSquad9 exPreds5 1 3 2 1 exSol9 exXiRes9
      (by with_unfolding_all rfl) (by with_unfolding_all decide)
      (by with_unfolding_all decide)
  constructor
  · rw [hbg]
    rfl
  · rw [hbg]
    simp [countPosX, hpos]

/-- A 15-asset squad with no goalkeeper at all (6 DEF, 6 MID, 3 FWD). -/
def exSquadNoGK : List SRow :=
  [mkS 1 "DEF", mkS 2 "DEF", mkS 3 "DEF", mkS 4 "DEF", mkS 5 "DEF",
   mkS 6 "DEF", mkS 7 "MID", mkS 8 "MID", mkS 9 "MID", mkS 10 "MID",
   mkS 11 "MID", mkS 12 "MID", mkS 13 "FWD", mkS 14 "FWD", mkS 15 "FWD"]

/-- A solve on the goalkeeper-less squad: CBC reports Infeasible and leaves
every variable unset. -/
def exSolNone : XiSolver := { status := -1, assign := fun _ => false }

/-- Counterexample for C9 as stated: on a 15-asset squad whose non-starters
hold zero goalkeepers (a count other than one), `pick_starting_xi` does not
return a single bench goalkeeper — it fails outright at the unconditional
captain indexing. -/
theorem pick_starting_xi_no_gk_counterexample :
    ((benchRows (joinPreds exSquadNoGK [] 1) exSolNone.assign).filter
      fun r => r.position == "GKP").length = 0 ∧
    pick_starting_xi exSquadNoGK [] 1 3 2 1 exSolNone =
      .error "IndexError: fewer than two starters to pick captain and vice" := by
  constructor
  · with_unfolding_all decide
  · with_unfolding_all rfl

end XiPicker

/-! ## Transfer planner (blocks/transfer_planner.py) -/

namespace TransferPlanner

/-- One row of a squad or market frame as the transfer planner sees it after
`_enforce_types`: the six columns the planner reads and writes
(`player_id, web_name, team_short, team_id, position, now_cost`; the planner's
loop calls `int(...)` on ids and teams, so rows with nulls there would crash —
the embedding types them as non-null), plus two representative extra columns
(`uid`, `horizon_xpts`) that an initial squad produced by the optimizer
carries and `_apply_transfer` must leave untouched. -/
structure TRow where
  player_id : Int
  web_name : String
  team_short : String
  team_id : Int
  position : String
  now_cost : ℚ
  uid : String
  horizon_xpts : ℚ
deriving DecidableEq, Repr

/-- The dataclass `TransferDecision` from blocks/transfer_planner.py. -/
structure TransferDecision where
  gw : Int
  action : String
  buy_id : Option Int
  buy_name : Option String
  buy_team : Option String
  buy_pos : Option String
  buy_price : Option ℚ
  sell_id : Option Int
  sell_name : Option String
  sell_team : Option String
  sell_pos : Option String
  sell_price : Option ℚ
  bank_after : ℚ
  base_xi_xpts : ℚ
  new_xi_xpts : ℚ
  gain : ℚ
deriving DecidableEq, Repr

/-- The club-count dictionary `_club_counts` read at one key: the number of
squad rows on club `t` (a key missing from the dict reads as 0). -/
def clubCount (squad : List TRow) (t : Int) : Nat :=
  squad.countP fun r => r.team_id == t

/-- Embedding of `_valid_after_transfer` (transfer_planner.py lines 46–65):
adjust the club counts by removing the seller and adding the buyer, then
check every count against the cap.  The checked keys are the dict's keys —
every club of the squad plus the buyer's club; a key the source pops (the
seller's club falling to zero) has adjusted count ≤ 0 and passes the check
trivially, so checking it too is equivalent. -/
def _valid_after_transfer (squad : List TRow) (sell buy : TRow)
    (max_per_club : Nat) : Bool :=
  (buy.team_id :: squad.map fun r => r.team_id).all fun t =>
    decide ((clubCount squad t : Int)
      - (if t = sell.team_id then 1 else 0)
      + (if t = buy.team_id then 1 else 0) ≤ (max_per_club : Int))

/-- The six-column overwrite `new.at[sell_idx, c] = buy_row[c]` of
`_apply_transfer`: the named columns take the buyer's values, every other
column keeps the seller's. -/
def replaceCols (r buy : TRow) : TRow :=
  { r with
    player_id := buy.player_id
    web_name := buy.web_name
    team_short := buy.team_short
    team_id := buy.team_id
    position := buy.position
    now_cost := buy.now_cost }

/-- Embedding of `_apply_transfer` (transfer_planner.py lines 68–74): a copy
of the squad with the row at `sell_idx` replaced by the buyer's six columns.
The source's `squad.copy()` no-aliasing guarantee is inherent in the pure
embedding. -/
def _apply_transfer : List TRow → Nat → TRow → List TRow
  | [], _, _ => []
  | r :: rs, 0, buy => replaceCols r buy :: rs
  | r :: rs, n + 1, buy => r :: _apply_transfer rs n buy

/-- The merge `market.merge(p, on="player_id", how="left")` plus `fillna(0.0)`
building the per-GW `xpts_gw` column of `market_gw` (transfer_planner.py
lines 94–98).  Upstream predictions are unique per (player, gw), so the
left-join attaches the first (only) matching prediction value. -/
def marketXpts (market : List TRow) (preds : List XiPicker.PredRow) (gw : Int) :
    List (TRow × ℚ) :=
  let p := preds.filter fun m => m.gw == gw
  market.map fun r =>
    match p.find? (fun m => XiPicker.pidMatches m.player_id (some r.player_id)) with
    | some m => (r, m.exp_points_scaled.getD 0)
    | none => (r, 0)

/-- Descending order on the joined `xpts_gw` value, for `nlargest`. -/
def valGe (a b : TRow × ℚ) : Prop := b.2 ≤ a.2

instance : DecidableRel valGe := fun a b =>
  inferInstanceAs (Decidable (b.2 ≤ a.2))

/-- `nlargest(topK, "xpts_gw")` with pandas' `keep="first"` tie policy: stable
descending sort, then take the first `k`. -/
def nlargest (k : Nat) (l : List (TRow × ℚ)) : List (TRow × ℚ) :=
  (List.insertionSort valGe l).take k

/-- The position-sliced pruned market `cand_pos` (transfer_planner.py lines
100–105).  A squad position outside the four keys would raise KeyError in the
source; here it simply yields an empty candidate slice. -/
def candPos (market_gw : List (TRow × ℚ)) (topK : Nat) (pos : String) :
    List (TRow × ℚ) :=
  nlargest topK (market_gw.filter fun b => b.1.position == pos)

/-- The float tolerance `1e-9` of the strict-improvement test. -/
def eps : ℚ := 1 / 1000000000

/-- The running best-swap accumulator of the candidate loop
(`best_gain`, `best`, `best_squad`, `best_bank`). -/
structure BestState where
  best_gain : ℚ
  best : Option (TRow × TRow × ℚ)
  best_squad : List TRow
  best_bank : ℚ

/-- One candidate evaluation of the inner loop (transfer_planner.py lines
129–140): reject the buy if the club cap would break, otherwise build the
hypothetical squad, re-run the lineup selector on it (`xiObj`, the opaque
`pick_starting_xi(...)["objective"]` call), and take the swap over the
incumbent only when its gain beats the incumbent's by more than `1e-9`. -/
def innerStep (xiObj : List TRow → ℚ) (squad : List TRow) (base_obj bank : ℚ)
    (idx : Nat) (row : TRow) (st : BestState) (buy : TRow × ℚ) : BestState :=
  if _valid_after_transfer squad row buy.1 3 then
    let trial_squad := _apply_transfer squad idx buy.1
    let gain := xiObj trial_squad - base_obj
    if st.best_gain + eps < gain then
      { best_gain := gain
        best := some (row, buy.1, xiObj trial_squad)
        best_squad := trial_squad
        best_bank := bank + row.now_cost - buy.1.now_cost }
    else st
  else st

/-- One seller iteration of the outer loop (transfer_planner.py lines
113–140): same-position candidates not already owned, affordable under
`price_in ≤ bank + out_cost`, folded through `innerStep`. -/
def outerStep (xiObj : List TRow → ℚ) (squad : List TRow) (base_obj bank : ℚ)
    (cand : String → List (TRow × ℚ)) (st : BestState) (pr : Nat × TRow) :
    BestState :=
  let row := pr.2
  let already := squad.map fun r => r.player_id
  let pool1 := ((cand row.position).filter
      fun b => ! already.contains b.1.player_id).filter
    fun b => decide (b.1.now_cost ≤ bank + row.now_cost)
  pool1.foldl (innerStep xiObj squad base_obj bank pr.1 row) st

/-- The HOLD decision record (transfer_planner.py lines 143–149). -/
def holdDecision (gw : Int) (bank base_obj : ℚ) : TransferDecision :=
  { gw := gw, action := "HOLD", buy_id := none, buy_name := none,
    buy_team := none, buy_pos := none, buy_price := none, sell_id := none,
    sell_name := none, sell_team := none, sell_pos := none, sell_price := none,
    bank_after := bank, base_xi_xpts := base_obj, new_xi_xpts := base_obj,
    gain := 0 }

/-- The committed-swap decision record (transfer_planner.py lines 152–170). -/
def swapDecision (gw : Int) (sell buy : TRow) (new_obj base_obj best_bank : ℚ) :
    TransferDecision :=
  { gw := gw
    action := "BUY " ++ buy.web_name ++ " / SELL " ++ sell.web_name
    buy_id := some buy.player_id
    buy_name := some buy.web_name
    buy_team := some buy.team_short
    buy_pos := some buy.position
    buy_price := some buy.now_cost
    sell_id := some sell.player_id
    sell_name := some sell.web_name
    sell_team := some sell.team_short
    sell_pos := some sell.position
    sell_price := some sell.now_cost
    bank_after := best_bank
    base_xi_xpts := base_obj
    new_xi_xpts := new_obj
    gain := new_obj - base_obj }

/-- The candidate search of `_best_single_transfer_for_gw` (transfer_planner.py
lines 89–140): the baseline objective `xiObj squad`, the pruned per-position
market, and the double loop over sellers and buys folded into the best-swap
accumulator. -/
def searchState (xiObj : List TRow → ℚ) (squad market : List TRow)
    (gw_preds : List XiPicker.PredRow) (gw : Int) (bank : ℚ)
    (topK_per_pos : Nat) : BestState :=
  squad.enum.foldl
    (outerStep xiObj squad (xiObj squad) bank
      (candPos (marketXpts market gw_preds gw) topK_per_pos))
    { best_gain := 0, best := none, best_squad := squad, best_bank := bank }

/-- Embedding of `_best_single_transfer_for_gw` (transfer_planner.py lines
77–171).  `xiObj` abstracts the lineup-selector objective for this gameweek —
the source's `pick_starting_xi(trial_squad, gw_preds, target_gw=gw)["objective"]`
call, solver included; the planner reads only this number, and every theorem
below holds for an arbitrary such function. -/
def _best_single_transfer_for_gw (xiObj : List TRow → ℚ)
    (squad market : List TRow) (gw_preds : List XiPicker.PredRow) (gw : Int)
    (bank : ℚ) (topK_per_pos : Nat) :
    TransferDecision × List TRow × ℚ :=
  let st := searchState xiObj squad market gw_preds gw bank topK_per_pos
  match st.best with
  | none => (holdDecision gw bank (xiObj squad), squad, bank)
  | some (sell, buy, new_obj) =>
    (swapDecision gw sell buy new_obj (xiObj squad) st.best_bank,
      st.best_squad, st.best_bank)

/-- Embedding of `plan_transfers_greedy` (transfer_planner.py lines 174–203):
thread squad and bank through the gameweek list, collecting one decision per
gameweek.  `xiObj gw` is the lineup-selector objective for gameweek `gw`;
`_enforce_types` is the typed embedding itself. -/
def plan_transfers_greedy (xiObj : Int → List TRow → ℚ) (market : List TRow)
    (preds : List XiPicker.PredRow) (topK_per_pos : Nat) :
    List Int → List TRow → ℚ → List TransferDecision × List TRow × ℚ
  | [], squad, bank => ([], squad, bank)
  | gw :: gws, squad, bank =>
    let step := _best_single_transfer_for_gw (xiObj gw) squad market preds gw
      bank topK_per_pos
    let rest := plan_transfers_greedy xiObj market preds topK_per_pos gws
      step.2.1 step.2.2
    (step.1 :: rest.1, rest.2.1, rest.2.2)

/-- A fold preserves any invariant its step preserves. -/
theorem foldl_inv {α : Type _} {β : Type _} (P : β → Prop) (f : β → α → β)
    (l : List α) (hf : ∀ b a, a ∈ l → P b → P (f b a)) :
    ∀ b, P b → P (l.foldl f b) := by
  induction l with
  | nil => intro b hb; exact hb
  | cons x xs ih =>
    intro b hb
    exact ih (fun b a ha hb => hf b a (List.mem_cons_of_mem _ ha) hb) _
      (hf b x (List.mem_cons_self _ _) hb)

/-- The tolerance is strictly positive. -/
theorem eps_pos : 0 < eps := by norm_num [eps]

/-- A committed-swap action string is never the HOLD action. -/
theorem buy_sell_action_ne_hold (a b : String) :
    ("BUY " ++ a ++ " / SELL " ++ b) ≠ "HOLD" := by
  intro h
  have hlen := congrArg String.length h
  simp only [String.length_append] at hlen
  have h1 : "BUY ".length = 4 := rfl
  have h2 : " / SELL ".length = 8 := rfl
  have h3 : "HOLD".length = 4 := rfl
  omega

/-- Prepending a row adds one to its club's count. -/
theorem clubCount_cons (r : TRow) (rs : List TRow) (t : Int) :
    clubCount (r :: rs) t = clubCount rs t + (if r.team_id = t then 1 else 0) := by
  unfold clubCount
  rw [List.countP_cons]
  by_cases h : r.team_id = t
  · simp [h]
  · simp [h]

/-- Replacing row `idx` changes the club counts by exactly one seller removal
and one buyer addition. -/
theorem clubCount_apply_transfer (buy : TRow) (squad : List TRow) :
    ∀ (idx : Nat) (row : TRow), squad.get? idx = some row → ∀ t : Int,
      (clubCount (_apply_transfer squad idx buy) t : Int) =
        (clubCount squad t : Int) - (if t = row.team_id then 1 else 0)
          + (if t = buy.team_id then 1 else 0) := by
  induction squad with
  | nil => intro idx row h; simp at h
  | cons r rs ih =>
    intro idx row h t
    cases idx with
    | zero =>
      rw [List.get?_cons_zero, Option.some.injEq] at h
      subst h
      have happ : _apply_transfer (r :: rs) 0 buy = replaceCols r buy :: rs :=
        rfl
      have hteam : (replaceCols r buy).team_id = buy.team_id := rfl
      rw [happ, clubCount_cons, clubCount_cons, hteam]
      push_cast
      split_ifs <;> omega
    | succ n =>
      rw [List.get?_cons_succ] at h
      have happ : _apply_transfer (r :: rs) (n + 1) buy =
          r :: _apply_transfer rs n buy := rfl
      have hrec := ih n row h t
      rw [happ, clubCount_cons, clubCount_cons]
      push_cast
      push_cast at hrec
      split_ifs at hrec ⊢ <;> omega

/-- A swap accepted by `_valid_after_transfer` leaves every club at or below
the cap in the hypothetical post-swap squad. -/
theorem valid_after_transfer_cap (squad : List TRow) (idx : Nat)
    (row buy : TRow) (hrow : squad.get? idx = some row)
    (hvalid : _valid_after_transfer squad row buy 3 = true) :
    ∀ t : Int, clubCount (_apply_transfer squad idx buy) t ≤ 3 := by
  intro t
  have hcount := clubCount_apply_transfer buy squad idx row hrow t
  unfold _valid_after_transfer at hvalid
  rw [List.all_eq_true] at hvalid
  by_cases ht : t ∈ buy.team_id :: squad.map fun r => r.team_id
  · have hle := hvalid t ht
    rw [decide_eq_true_eq] at hle
    have hint : (clubCount (_apply_transfer squad idx buy) t : Int) ≤ 3 := by
      rw [hcount]
      exact hle
    exact_mod_cast hint
  · have hbuy : t ≠ buy.team_id := fun h => ht (h ▸ List.mem_cons_self _ _)
    have hzero : clubCount squad t = 0 := by
      refine List.countP_eq_zero.mpr ?_
      intro r hr hbeq
      rw [beq_iff_eq] at hbeq
      exact ht (List.mem_cons_of_mem _ (List.mem_map.mpr ⟨r, hr, hbeq⟩))
    have hint : (clubCount (_apply_transfer squad idx buy) t : Int) ≤ 3 := by
      rw [hcount, hzero, if_neg hbuy]
      split <;> omega
    exact_mod_cast hint

/-- The loop invariant of the candidate search: the incumbent gain is
non-negative; while no swap is held the state is the input state; once a swap
is held, its gain is the recorded objective difference and beats the
tolerance, its bank is the input bank plus seller price minus buyer price,
and its hypothetical squad respects the club cap everywhere. -/
def stateInv (squad : List TRow) (base_obj bank : ℚ) (st : BestState) : Prop :=
  0 ≤ st.best_gain ∧
  (st.best = none →
    st.best_gain = 0 ∧ st.best_squad = squad ∧ st.best_bank = bank) ∧
  (∀ sell buy new_obj, st.best = some (sell, buy, new_obj) →
    st.best_gain = new_obj - base_obj ∧
    eps < st.best_gain ∧
    st.best_bank = bank + sell.now_cost - buy.now_cost ∧
    (∀ t : Int, clubCount st.best_squad t ≤ 3))

/-- `innerStep` preserves the loop invariant. -/
theorem innerStep_inv (xiObj : List TRow → ℚ) (squad : List TRow)
    (base_obj bank : ℚ) (idx : Nat) (row : TRow)
    (hrow : squad.get? idx = some row) (st : BestState) (buy : TRow × ℚ)
    (hst : stateInv squad base_obj bank st) :
    stateInv squad base_obj bank
      (innerStep xiObj squad base_obj bank idx row st buy) := by
  unfold innerStep
  split
  case isFalse => exact hst
  case isTrue hvalid =>
    simp only []
    split
    case isFalse => exact hst
    case isTrue hgain =>
      obtain ⟨hge, hnone, hsome⟩ := hst
      have hepslt : eps < xiObj (_apply_transfer squad idx buy.1) - base_obj := by
        have hle : eps ≤ st.best_gain + eps := by linarith
        exact lt_of_le_of_lt hle hgain
      refine ⟨?_, ?_, ?_⟩
      · show 0 ≤ xiObj (_apply_transfer squad idx buy.1) - base_obj
        linarith [eps_pos]
      · intro h
        exact absurd h (by simp)
      · intro sell buy' new_obj h
        simp only [Option.some.injEq, Prod.mk.injEq] at h
        obtain ⟨h1, h2, h3⟩ := h
        subst h1
        subst h2
        subst h3
        exact ⟨rfl, hepslt, rfl,
          valid_after_transfer_cap squad idx row buy.1 hrow hvalid⟩

/-- `outerStep` preserves the loop invariant for every seller drawn from the
squad's enumeration. -/
theorem outerStep_inv (xiObj : List TRow → ℚ) (squad : List TRow)
    (base_obj bank : ℚ) (cand : String → List (TRow × ℚ)) (st : BestState)
    (pr : Nat × TRow) (hpr : pr ∈ squad.enum)
    (hst : stateInv squad base_obj bank st) :
    stateInv squad base_obj bank
      (outerStep xiObj squad base_obj bank cand st pr) := by
  have hrow0 : squad[pr.1]? = some pr.2 := List.mem_enum_iff_getElem?.mp hpr
  have hrow : squad.get? pr.1 = some pr.2 := by
    rw [List.get?_eq_getElem?]
    exact hrow0
  unfold outerStep
  exact foldl_inv (stateInv squad base_obj bank)
    (innerStep xiObj squad base_obj bank pr.1 pr.2) _
    (fun b a _ hb => innerStep_inv xiObj squad base_obj bank pr.1 pr.2 hrow b a hb)
    st hst

/-- The final state of the candidate search satisfies the loop invariant. -/
theorem searchState_inv (xiObj : List TRow → ℚ) (squad market : List TRow)
    (gw_preds : List XiPicker.PredRow) (gw : Int) (bank : ℚ) (topK : Nat) :
    stateInv squad (xiObj squad) bank
      (searchState xiObj squad market gw_preds gw bank topK) := by
  unfold searchState
  refine foldl_inv (stateInv squad (xiObj squad) bank)
    (outerStep xiObj squad (xiObj squad) bank
      (candPos (marketXpts market gw_preds gw) topK)) squad.enum
    (fun b a ha hb => outerStep_inv xiObj squad (xiObj squad) bank _ b a ha hb)
    _ ⟨le_refl 0, fun _ => ⟨rfl, rfl, rfl⟩, ?_⟩
  intro sell buy new_obj h
  exact absurd h (by simp)

/-- With no held swap the planner emits HOLD and returns squad and bank
unchanged. -/
theorem best_single_transfer_eq_hold (xiObj : List TRow → ℚ)
    (squad market : List TRow) (gw_preds : List XiPicker.PredRow) (gw : Int)
    (bank : ℚ) (topK : Nat)
    (hb : (searchState xiObj squad market gw_preds gw bank topK).best = none) :
    _best_single_transfer_for_gw xiObj squad market gw_preds gw bank topK =
      (holdDecision gw bank (xiObj squad), squad, bank) := by
  unfold _best_single_transfer_for_gw
  simp only []
  rw [hb]

/-- With a held swap the planner emits the corresponding swap decision and
returns the held squad and bank. -/
theorem best_single_transfer_eq_swap (xiObj : List TRow → ℚ)
    (squad market : List TRow) (gw_preds : List XiPicker.PredRow) (gw : Int)
    (bank : ℚ) (topK : Nat) (sell buy : TRow) (new_obj : ℚ)
    (hb : (searchState xiObj squad market gw_preds gw bank topK).best =
      some (sell, buy, new_obj)) :
    _best_single_transfer_for_gw xiObj squad market gw_preds gw bank topK =
      (swapDecision gw sell buy new_obj (xiObj squad)
        (searchState xiObj squad market gw_preds gw bank topK).best_bank,
       (searchState xiObj squad market gw_preds gw bank topK).best_squad,
       (searchState xiObj squad market gw_preds gw bank topK).best_bank) := by
  unfold _best_single_transfer_for_gw
  simp only []
  rw [hb]

/-- C3: every non-HOLD decision emitted by `_best_single_transfer_for_gw`
records a gain equal to its post-swap lineup objective minus its baseline
objective, and that gain strictly exceeds the `1e-9` tolerance; when no
feasible swap beats the tolerance the decision is HOLD with zero gain, the
post-swap objective equal to the baseline, and squad and bank returned
unchanged. -/
theorem best_single_transfer_gain_consistency (xiObj : List TRow → ℚ)
    (squad market : List TRow) (gw_preds : List XiPicker.PredRow) (gw : Int)
    (bank : ℚ) (topK : Nat) :
    let r := _best_single_transfer_for_gw xiObj squad market gw_preds gw bank
      topK
    (r.1.action ≠ "HOLD" →
      r.1.new_xi_xpts - r.1.base_xi_xpts = r.1.gain ∧ eps < r.1.gain) ∧
    (r.1.action = "HOLD" →
      r.1.gain = 0 ∧ r.1.new_xi_xpts = r.1.base_xi_xpts ∧
      r.2.1 = squad ∧ r.2.2 = bank) := by
  simp only []
  cases hb : (searchState xiObj squad market gw_preds gw bank topK).best with
  | none =>
    rw [best_single_transfer_eq_hold xiObj squad market gw_preds gw bank topK hb]
    exact ⟨fun h => absurd rfl h, fun _ => ⟨rfl, rfl, rfl, rfl⟩⟩
  | some x =>
    obtain ⟨sell, buy, new_obj⟩ := x
    rw [best_single_transfer_eq_swap xiObj squad market gw_preds gw bank topK
      sell buy new_obj hb]
    obtain ⟨hgain_eq, hgain_gt, hbank, hcap⟩ :=
      (searchState_inv xiObj squad market gw_preds gw bank topK).2.2
        sell buy new_obj hb
    refine ⟨fun _ => ⟨rfl, ?_⟩, fun h =>
      absurd h (buy_sell_action_ne_hold buy.web_name sell.web_name)⟩
    show eps < new_obj - xiObj squad
    rw [← hgain_eq]
    exact hgain_gt

/-- Decision-level bank accounting of `_best_single_transfer_for_gw`: the
returned carried-forward bank is the decision's `bank_after`; a HOLD leaves
the bank unchanged and a committed swap's `bank_after` is the input bank plus
the recorded sell price minus the recorded buy price. -/
theorem best_single_transfer_bank (xiObj : List TRow → ℚ)
    (squad market : List TRow) (gw_preds : List XiPicker.PredRow) (gw : Int)
    (bank : ℚ) (topK : Nat) :
    let r := _best_single_transfer_for_gw xiObj squad market gw_preds gw bank
      topK
    r.2.2 = r.1.bank_after ∧
    (if r.1.action = "HOLD" then r.1.bank_after = bank
     else r.1.bank_after =
       bank + r.1.sell_price.getD 0 - r.1.buy_price.getD 0) := by
  simp only []
  cases hb : (searchState xiObj squad market gw_preds gw bank topK).best with
  | none =>
    rw [best_single_transfer_eq_hold xiObj squad market gw_preds gw bank topK hb]
    refine ⟨rfl, ?_⟩
    split
    case isTrue => rfl
    case isFalse h => exact absurd rfl h
  | some x =>
    obtain ⟨sell, buy, new_obj⟩ := x
    rw [best_single_transfer_eq_swap xiObj squad market gw_preds gw bank topK
      sell buy new_obj hb]
    obtain ⟨hgain_eq, hgain_gt, hbank, hcap⟩ :=
      (searchState_inv xiObj squad market gw_preds gw bank topK).2.2
        sell buy new_obj hb
    refine ⟨rfl, ?_⟩
    split
    case isTrue h =>
      exact absurd h (buy_sell_action_ne_hold buy.web_name sell.web_name)
    case isFalse => exact hbank

/-- Bank-conservation along a whole plan: each decision's `bank_after` equals
the bank carried into it, unchanged on HOLD and adjusted by sell price minus
buy price on a committed swap; the next decision starts from `bank_after`. -/
def bankChainOk : ℚ → List TransferDecision → Prop
  | _, [] => True
  | b, d :: ds =>
    (if d.action = "HOLD" then d.bank_after = b
     else d.bank_after = b + d.sell_price.getD 0 - d.buy_price.getD 0) ∧
    bankChainOk d.bank_after ds

/-- C4: every plan produced by `plan_transfers_greedy` conserves the bank:
for every committed swap `bank_after = bank_before + sell_price − buy_price`,
for every HOLD `bank_after = bank_before`, where `bank_before` is the bank
threaded from the previous decision (the starting bank for the first). -/
theorem plan_transfers_bank_conservation (xiObj : Int → List TRow → ℚ)
    (market : List TRow) (preds : List XiPicker.PredRow) (topK : Nat) :
    ∀ (gw_list : List Int) (squad : List TRow) (bank : ℚ),
      bankChainOk bank
        (plan_transfers_greedy xiObj market preds topK gw_list squad bank).1 := by
  intro gws
  induction gws with
  | nil => intro squad bank; trivial
  | cons gw rest ih =>
    intro squad bank
    unfold plan_transfers_greedy
    simp only []
    obtain ⟨hthread, hcond⟩ :=
      best_single_transfer_bank (xiObj gw) squad market preds gw bank topK
    refine ⟨hcond, ?_⟩
    rw [← hthread]
    exact ih _ _

/-- C8: starting from a squad satisfying the club cap, the squad carried out
of `_best_single_transfer_for_gw` — the post-swap squad when a swap is
committed, the input squad on HOLD — satisfies the club cap at every club;
candidate swaps breaching the cap are rejected by `_valid_after_transfer` and
never committed. -/
theorem best_single_transfer_club_cap (xiObj : List TRow → ℚ)
    (squad market : List TRow) (gw_preds : List XiPicker.PredRow) (gw : Int)
    (bank : ℚ) (topK : Nat)
    (hcap : ∀ t ∈ squad.map (fun r => r.team_id), clubCount squad t ≤ 3) :
    ∀ t : Int,
      clubCount
        ((_best_single_transfer_for_gw xiObj squad market gw_preds gw bank
          topK).2.1) t ≤ 3 := by
  have hcap' : ∀ t : Int, clubCount squad t ≤ 3 := by
    intro t
    by_cases ht : t ∈ squad.map fun r => r.team_id
    · exact hcap t ht
    · have hzero : clubCount squad t = 0 := by
        refine List.countP_eq_zero.mpr ?_
        intro r hr hbeq
        rw [beq_iff_eq] at hbeq
        exact ht (List.mem_map.mpr ⟨r, hr, hbeq⟩)
      omega
  intro t
  cases hb : (searchState xiObj squad market gw_preds gw bank topK).best with
  | none =>
    rw [best_single_transfer_eq_hold xiObj squad market gw_preds gw bank topK hb]
    exact hcap' t
  | some x =>
    obtain ⟨sell, buy, new_obj⟩ := x
    rw [best_single_transfer_eq_swap xiObj squad market gw_preds gw bank topK
      sell buy new_obj hb]
    exact ((searchState_inv xiObj squad market gw_preds gw bank topK).2.2
      sell buy new_obj hb).2.2.2 t

/-- `_apply_transfer` keeps the squad's length. -/
theorem apply_transfer_length (buy : TRow) :
    ∀ (squad : List TRow) (idx : Nat),
      (_apply_transfer squad idx buy).length = squad.length
  | [], _ => rfl
  | _ :: _, 0 => rfl
  | _ :: rs, n + 1 => congrArg Nat.succ (apply_transfer_length buy rs n)

/-- `_apply_transfer` rewrites exactly the addressed row. -/
theorem apply_transfer_get_eq (buy : TRow) :
    ∀ (squad : List TRow) (idx : Nat) (row : TRow),
      squad.get? idx = some row →
      (_apply_transfer squad idx buy).get? idx = some (replaceCols row buy) := by
  intro squad
  induction squad with
  | nil => intro idx row h; simp at h
  | cons r rs ih =>
    intro idx row h
    cases idx with
    | zero =>
      rw [List.get?_cons_zero, Option.some.injEq] at h
      subst h
      rfl
    | succ n =>
      rw [List.get?_cons_succ] at h
      exact ih n row h

/-- `_apply_transfer` leaves every other row untouched. -/
theorem apply_transfer_get_ne (buy : TRow) :
    ∀ (squad : List TRow) (idx j : Nat), j ≠ idx →
      (_apply_transfer squad idx buy).get? j = squad.get? j := by
  intro squad
  induction squad with
  | nil => intro idx j _; rfl
  | cons r rs ih =>
    intro idx j hne
    cases idx with
    | zero =>
      cases j with
      | zero => exact absurd rfl hne
      | succ m => rfl
    | succ n =>
      cases j with
      | zero => rfl
      | succ m => exact ih n m (fun h => hne (by rw [h]))

/-- C10: `_apply_transfer` returns a squad of the same length in which only
the addressed row changed; that row takes the buyer's six planner columns
(`player_id, web_name, team_short, team_id, position, now_cost`) and keeps
the seller's values in every other column (here `uid` and `horizon_xpts`);
every other row is unchanged.  The caller's input squad is untouched — the
embedding is pure, exactly as the source's `squad.copy()` guarantees. -/
theorem apply_transfer_frame (squad : List TRow) (idx : Nat) (row buy : TRow)
    (hrow : squad.get? idx = some row) :
    (_apply_transfer squad idx buy).length = squad.length ∧
    (_apply_transfer squad idx buy).get? idx = some (replaceCols row buy) ∧
    (∀ j : Nat, j ≠ idx →
      (_apply_transfer squad idx buy).get? j = squad.get? j) ∧
    (replaceCols row buy).player_id = buy.player_id ∧
    (replaceCols row buy).web_name = buy.web_name ∧
    (replaceCols row buy).team_short = buy.team_short ∧
    (replaceCols row buy).team_id = buy.team_id ∧
    (replaceCols row buy).position = buy.position ∧
    (replaceCols row buy).now_cost = buy.now_cost ∧
    (replaceCols row buy).uid = row.uid ∧
    (replaceCols row buy).horizon_xpts = row.horizon_xpts :=
  ⟨apply_transfer_length buy squad idx,
   apply_transfer_get_eq buy squad idx row hrow,
   fun j hj => apply_transfer_get_ne buy squad idx j hj,
   rfl, rfl, rfl, rfl, rfl, rfl, rfl, rfl⟩

/-- Concrete planner row used by the examples. -/
def mkT (pid team : Int) (pos : String) (cost : ℚ) : TRow :=
  { player_id := pid, web_name := toString pid, team_short := "T",
    team_id := team, position := pos, now_cost := cost, uid := toString pid,
    horizon_xpts := 0 }

/-- A lineup-selector objective for the examples: total squad price (any
function of the squad is a legal stand-in for the opaque XI solve). -/
def exXiObjT : List TRow → ℚ := fun sq => (sq.map fun r => r.now_cost).sum

/-- A legal 15-asset squad, one asset per club, 4.0 each. -/
def exSquadT : List TRow :=
  [mkT 1 1 "GKP" 4, mkT 2 2 "GKP" 4,
   mkT 3 3 "DEF" 4, mkT 4 4 "DEF" 4, mkT 5 5 "DEF" 4, mkT 6 6 "DEF" 4,
   mkT 7 7 "DEF" 4,
   mkT 8 8 "MID" 4, mkT 9 9 "MID" 4, mkT 10 10 "MID" 4, mkT 11 11 "MID" 4,
   mkT 12 12 "MID" 4,
   mkT 13 13 "FWD" 4, mkT 14 14 "FWD" 4, mkT 15 15 "FWD" 4]

/-- A one-asset market: an affordable goalkeeper on a new club whose purchase
raises the example objective. -/
def exMarketT : List TRow := [mkT 100 16 "GKP" 5]

/-- Witness for C3: on `exSquadT` with market `exMarketT` the planner commits
a swap whose recorded gain is the objective difference and beats the
tolerance; with an empty market it emits HOLD and returns squad and bank
unchanged. -/
theorem best_single_transfer_gain_consistency_witness :
    ((_best_single_transfer_for_gw exXiObjT exSquadT exMarketT [] 1 2
        60).1.new_xi_xpts
      - (_best_single_transfer_for_gw exXiObjT exSquadT exMarketT [] 1 2
        60).1.base_xi_xpts
      = (_best_single_transfer_for_gw exXiObjT exSquadT exMarketT [] 1 2
        60).1.gain ∧
      eps < (_best_single_transfer_for_gw exXiObjT exSquadT exMarketT [] 1 2
        60).1.gain) ∧
    ((_best_single_transfer_for_gw exXiObjT exSquadT [] [] 1 2 60).1.gain = 0 ∧
     (_best_single_transfer_for_gw exXiObjT exSquadT [] [] 1 2 60).2.1 =
       exSquadT ∧
     (_best_single_transfer_for_gw exXiObjT exSquadT [] [] 1 2 60).2.2 = 2) := by
  constructor
  · exact
      (best_single_transfer_gain_consistency exXiObjT exSquadT exMarketT [] 1 2
        60).1 (by with_unfolding_all decide)
  · obtain ⟨hgain, hnew, hsq, hbank⟩ :=
      (best_single_transfer_gain_consistency exXiObjT exSquadT [] [] 1 2 60).2
        (by with_unfolding_all decide)
    exact ⟨hgain, hsq, hbank⟩

/-- Witness for C8: the squad carried out of the committed example swap obeys
the club cap at the buyer's club. -/
theorem best_single_transfer_club_cap_witness :
    clubCount
      ((_best_single_transfer_for_gw exXiObjT exSquadT exMarketT [] 1 2
        60).2.1) 16 ≤ 3 :=
  best_single_transfer_club_cap exXiObjT exSquadT exMarketT [] 1 2 60
    (by with_unfolding_all decide) 16

/-- Witness for C10 on `exSquadT`: selling row 0 to buy the market goalkeeper
keeps the length, rewrites row 0 with the buyer's six columns while keeping
the seller's `uid`, and leaves row 1 unchanged. -/
theorem apply_transfer_frame_witness :
    (_apply_transfer exSquadT 0 (mkT 100 16 "GKP" 5)).length = 15 ∧
    (_apply_transfer exSquadT 0 (mkT 100 16 "GKP" 5)).get? 0 =
      some (replaceCols (mkT 1 1 "GKP" 4) (mkT 100 16 "GKP" 5)) ∧
    (_apply_transfer exSquadT 0 (mkT 100 16 "GKP" 5)).get? 1 =
      exSquadT.get? 1 ∧
    (replaceCols (mkT 1 1 "GKP" 4) (mkT 100 16 "GKP" 5)).uid =
      (mkT 1 1 "GKP" 4).uid := by
  obtain ⟨hlen, heq, hne, h1, h2, h3, h4, h5, h6, h7, h8⟩ :=
    apply_transfer_frame exSquadT 0 (mkT 1 1 "GKP" 4) (mkT 100 16 "GKP" 5) rfl
  refine ⟨?_, heq, hne 1 (by decide), h7⟩
  rw [hlen]
  rfl

end TransferPlanner

end FPL
